import Mathlib

/-!
Verification development for the gallery-dl post-processing plugin pipeline
and the Patreon extractor's warn-once behaviour.

The postprocessor modules themselves (registry, classify, metadata, mtime,
archive/zip) are not part of the provided sources — only their test suite is —
so their behaviour is modelled from the specification, component by component.
The Patreon extractor is embedded directly from
`src/gallery_dl/extractor/patreon.py`.
-/

set_option autoImplicit false

namespace GalleryDL

/-! ## Association-list primitives

Python `dict`s with unique keys are modelled as association lists; `alookup`
is `dict.get` (first match — keys are unique along all reachable states) and
`ainsert` is `dict[k] = v` (replace in place, or append preserving insertion
order). -/

/-- Lookup in an association list keyed by strings: `dict.get`. -/
def alookup {α : Type} : List (String × α) → String → Option α
  | [], _ => none
  | p :: rest, k => if p.1 = k then some p.2 else alookup rest k

/-- Update of an association list keyed by strings: `dict[k] = v`.
Replaces the first binding of `k` in place, or appends a new binding at the
end (Python insertion-order semantics). -/
def ainsert {α : Type} : List (String × α) → String → α → List (String × α)
  | [], k, v => [(k, v)]
  | p :: rest, k, v => if p.1 = k then (k, v) :: rest else p :: ainsert rest k v

theorem alookup_ainsert {α : Type} (l : List (String × α)) (k : String) (v : α) :
    alookup (ainsert l k v) k = some v := by
  induction l with
  | nil => simp [ainsert, alookup]
  | cons p rest ih =>
    by_cases h : p.1 = k
    · simp [ainsert, alookup, h]
    · simp [ainsert, alookup, h, ih]

/-! ## Path contexts

Modelled from the spec: the `PathContext` collaborator (spec §3) carrying one
in-flight item's target location.  `base` is the absolute base directory,
`directory` the sequence of path segments below it; `path` is the computed
final target and `realpath` its resolved absolute form (the base being
absolute and no links being modelled, resolution is the identity). -/

/-- Join path segments with `/` separators (no trailing separator). -/
def joinSegs : List String → String
  | [] => ""
  | [s] => s
  | s :: r :: rest => s ++ "/" ++ joinSegs (r :: rest)

/-- Modelled from the spec: the mutable description of one in-flight item's
target location (directory, filename, extension); the concrete `PathFormat`
class is absent from the sources. -/
structure PathContext where
  base : String
  directory : List String
  filename : String
  extension : String
deriving Repr, DecidableEq

/-- The item's resolved real directory. -/
def PathContext.realdirectory (ctx : PathContext) : String :=
  joinSegs (ctx.base :: ctx.directory)

/-- The computed final target path, recomputed from the current fields. -/
def PathContext.path (ctx : PathContext) : String :=
  ctx.realdirectory ++ "/" ++ ctx.filename ++ "." ++ ctx.extension

/-- The resolved absolute form of `path`; the base directory is already
absolute, so resolution does not change the computed path. -/
def PathContext.realpath (ctx : PathContext) : String :=
  ctx.path

theorem joinSegs_append_last (a : String) (l : List String) (d : String) :
    joinSegs (a :: (l ++ [d])) = joinSegs (a :: l) ++ "/" ++ d := by
  induction l generalizing a with
  | nil => simp [joinSegs, String.append_assoc]
  | cons x xs ih =>
    simp only [List.cons_append, joinSegs, List.append_eq]
    rw [ih x]
    simp [String.append_assoc]

/-! ## PluginRegistry

Modelled from the spec: the postprocessor module registry
(`gallery_dl/postprocessor/__init__.py` is absent from the sources).
`modules` is the set of known plugin categories (§2: classify, metadata,
mtime, archive/zip); `find` lazily resolves a category name to its
constructor symbol `Capitalize(name) + "PP"` and caches the result, never
raising for non-string or unknown names (§4.1). -/

/-- Modelled from the spec: the list of known plugin category names (§2). -/
def modules : List String := ["classify", "metadata", "mtime", "zip"]

/-- Python's `str.capitalize`: first character upper-cased, rest lower-cased. -/
def capitalizeStr (s : String) : String :=
  match s.data with
  | [] => ""
  | c :: cs => String.mk (c.toUpper :: cs.map Char.toLower)

/-- An argument passed to `find`: a string, or any non-string value
(`1234`, `None`, ...). -/
inductive FindArg where
  | str (s : String)
  | nonstring
deriving Repr, DecidableEq

/-- Modelled from the spec: the registry state — the process-wide cache of
resolved constructors plus a counter of underlying module-resolution
attempts (the `importlib.import_module` call count observed by the tests). -/
structure Registry where
  cache : List (String × String)
  resolutions : Nat
deriving Repr, DecidableEq

/-- The initial registry: empty cache, no resolution attempt yet. -/
def Registry.init : Registry := ⟨[], 0⟩

/-- Modelled from the spec: the underlying module resolution — succeeds
exactly for known category names, yielding the constructor symbol
`Capitalize(name) + "PP"` (§4.1, §6). -/
def resolveSymbol (name : String) : Option String :=
  if name ∈ modules then some (capitalizeStr name ++ "PP") else none

/-- Modelled from the spec: `find(name)` (§4.1).  Non-string arguments and
failed resolutions yield `none` (never a fault); a successful resolution is
cached so that later calls with the same name do not resolve again. -/
def find (a : FindArg) (st : Registry) : Option String × Registry :=
  match a with
  | .nonstring => (none, st)
  | .str name =>
    match alookup st.cache name with
    | some k => (some k, st)
    | none =>
      let st1 : Registry := ⟨st.cache, st.resolutions + 1⟩
      match resolveSymbol name with
      | some k => (some k, ⟨ainsert st1.cache name k, st1.resolutions⟩)
      | none => (none, st1)

/-- Iterate `find` with the same argument `n` times, keeping the state. -/
def findN : Nat → FindArg → Registry → Registry
  | 0, _, st => st
  | n + 1, a, st => findN n a (find a st).2

theorem find_cached (st : Registry) (name k : String)
    (h : alookup st.cache name = some k) :
    find (.str name) st = (some k, st) := by
  simp [find, h]

theorem find_fresh_known (st : Registry) (name : String)
    (hc : alookup st.cache name = none) (hm : name ∈ modules) :
    find (.str name) st =
      (some (capitalizeStr name ++ "PP"),
       ⟨ainsert st.cache name (capitalizeStr name ++ "PP"), st.resolutions + 1⟩) := by
  simp [find, hc, resolveSymbol, hm]

theorem findN_stable (n : Nat) (name : String) (st : Registry)
    (h : ∃ k, alookup st.cache name = some k) :
    findN n (.str name) st = st := by
  induction n with
  | zero => rfl
  | succ m ih =>
    obtain ⟨k, hk⟩ := h
    simp [findN, find_cached st name k hk, ih]

/-! ## ClassifyPostprocessor

Modelled from the spec: `gallery_dl/postprocessor/classify.py` is absent from
the sources.  The plugin is built from a directory-label → extensions mapping,
inverted at construction into extension → label with last-one-wins on
duplicate extensions (§4.2). -/

/-- Lookup returning the LAST binding of a key — the value a Python dict
comprehension ends up with when the same key is assigned repeatedly. -/
def lookupLast : List (String × String) → String → Option String
  | [], _ => none
  | p :: rest, k =>
    match lookupLast rest k with
    | some v => some v
    | none => if p.1 = k then some p.2 else none

/-- Modelled from the spec: the built-in default mapping routing common
extensions to media directories (§4.2 names only the `Pictures` example). -/
def DEFAULT_MAPPING : List (String × List String) :=
  [("Pictures", ["jpg", "jpeg", "png", "gif", "bmp", "svg", "webp"]),
   ("Video", ["flv", "ogv", "avi", "mp4", "mpg", "mpeg", "3gp", "mkv",
              "webm", "vob", "wmv"]),
   ("Music", ["mp3", "aac", "flac", "ogg", "wma", "m4a", "wav"]),
   ("Archives", ["zip", "rar", "7z", "tar", "gz", "bz2"])]

/-- Invert a directory-label → extensions mapping into a flat
extension → label association (to be read with `lookupLast`). -/
def invert (m : List (String × List String)) : List (String × String) :=
  m.foldr (fun p acc => p.2.map (fun e => (e, p.1)) ++ acc) []

/-- Modelled from the spec: the classify plugin's immutable state — the
inverted extension → directory-label mapping computed at construction. -/
structure ClassifyPP where
  mapping : List (String × String)
deriving Repr, DecidableEq

/-- Construction: invert the configured mapping, or the default one. -/
def mkClassify (raw : Option (List (String × List String))) : ClassifyPP :=
  ⟨invert (raw.getD DEFAULT_MAPPING)⟩

/-- Modelled from the spec: `prepare` (§4.2) — look the current extension up
in the inverted mapping; if found, append the label as an additional path
segment (recomputing `path`/`realpath`, which are computed fields here) and
remember the target directory for `run`; otherwise leave everything alone. -/
def classifyPrepare (pp : ClassifyPP) (ctx : PathContext) :
    PathContext × Option String :=
  match lookupLast pp.mapping ctx.extension with
  | some label =>
    let ctx2 : PathContext := { ctx with directory := ctx.directory ++ [label] }
    (ctx2, some ctx2.realdirectory)
  | none => (ctx, none)

/-- Modelled from the spec: `run` (§4.2) — create the target directory tree
idempotently (`exist_ok`) when `prepare` mapped the extension, otherwise do
nothing.  The filesystem is the set of existing directories; the second
component counts the `os.makedirs` calls issued. -/
def classifyRun (target : Option String) (fs : List String) :
    List String × Nat :=
  match target with
  | none => (fs, 0)
  | some d => ((if d ∈ fs then fs else d :: fs), 1)

/-! ## Metadata values

A single tagged type stands for the Python values living in `kwdict`:
strings, integers, lists of strings, and structured date/time values. -/

/-- A UTC date/time value (the `datetime` objects flowing through `kwdict`). -/
structure DateTimeUTC where
  year : Int
  month : Nat
  day : Nat
  hour : Nat
  minute : Nat
  second : Nat
deriving Repr, DecidableEq

/-- Days since the POSIX epoch of a proleptic-Gregorian civil date
(the standard days-from-civil computation). -/
def daysFromCivil (y : Int) (m d : Nat) : Int :=
  let y1 : Int := if m ≤ 2 then y - 1 else y
  let era : Int := (if 0 ≤ y1 then y1 else y1 - 399) / 400
  let yoe : Int := y1 - era * 400
  let mp : Int := if 2 < m then (m : Int) - 3 else (m : Int) + 9
  let doy : Int := (153 * mp + 2) / 5 + (d : Int) - 1
  let doe : Int := yoe * 365 + yoe / 4 - yoe / 100 + doy
  era * 146097 + doe - 719468

/-- POSIX timestamp (seconds) of a UTC date/time value. -/
def toPosix (dt : DateTimeUTC) : Int :=
  daysFromCivil dt.year dt.month dt.day * 86400
    + (dt.hour : Int) * 3600 + (dt.minute : Int) * 60 + (dt.second : Int)

/-- A value stored in `kwdict`. -/
inductive MetaValue where
  | str (s : String)
  | int (n : Int)
  | strlist (l : List String)
  | date (d : DateTimeUTC)
deriving Repr, DecidableEq

/-- An item's metadata mapping. -/
abbrev KwDict := List (String × MetaValue)

/-! ## MetadataPostprocessor

Modelled from the spec: `gallery_dl/postprocessor/metadata.py` is absent from
the sources.  Only the `tags` and `custom` writers are needed here (§4.3). -/

/-- Split a character list at every separator character (empty pieces kept,
as with Python `str.split(sep)`). -/
def splitCharsAux (p : Char → Bool) : List Char → List Char → List (List Char)
  | [], acc => [acc.reverse]
  | c :: cs, acc =>
    if p c then acc.reverse :: splitCharsAux p cs []
    else splitCharsAux p cs (c :: acc)

/-- Split a string at every character satisfying `p`. -/
def splitChars (p : Char → Bool) (s : String) : List String :=
  (splitCharsAux p s.data []).map String.mk

/-- Strip leading and trailing whitespace, as Python `str.strip()`. -/
def stripStr (s : String) : String :=
  String.mk
    (((s.data.dropWhile Char.isWhitespace).reverse.dropWhile
        Char.isWhitespace).reverse)

/-- Modelled from the spec: split a tag string on commas when it contains
one (stripping the surrounding whitespace of each piece), otherwise on
whitespace (dropping empty pieces, as Python `str.split()`) (§4.3). -/
def splitTags (s : String) : List String :=
  if s.data.contains ',' then
    (splitChars (fun c => c = ',') s).map stripStr
  else
    (splitChars Char.isWhitespace s).filter (fun t => t ≠ "")

/-- Join with newline separators (no trailing separator). -/
def joinNL : List String → String
  | [] => ""
  | [s] => s
  | s :: r :: rest => s ++ "\n" ++ joinNL (r :: rest)

/-- One tag per line, terminated by a final newline. -/
def joinLines (l : List String) : String := joinNL l ++ "\n"

/-- Modelled from the spec: the text written by the `tags` mode (§4.3) —
the `tags` field as is when it is already a sequence, split with
`splitTags` when `tags` (or, failing that, `tag_string`) is a string;
`none` when neither field is usable. -/
def tagsOutput (kw : KwDict) : Option String :=
  match alookup kw "tags" with
  | some (MetaValue.strlist l) => some (joinLines l)
  | some (MetaValue.str s) => some (joinLines (splitTags s))
  | _ =>
    match alookup kw "tag_string" with
    | some (MetaValue.str s) => some (joinLines (splitTags s))
    | _ => none

/-- The opening brace character of a template placeholder. -/
def lbrace : Char := Char.ofNat 123

/-- The closing brace character of a template placeholder. -/
def rbrace : Char := Char.ofNat 125

/-- How a looked-up `kwdict` value is rendered into the output text;
a missing key renders as the literal text `None` (§4.3, §6). -/
def formatValue : Option MetaValue → String
  | none => "None"
  | some (MetaValue.str s) => s
  | some (MetaValue.int n) => toString n
  | some (MetaValue.strlist l) => joinNL l
  | some (MetaValue.date d) => toString (toPosix d)

/-- Modelled from the spec: the template renderer of the `custom` mode
(§4.3).  Characters are copied verbatim; a brace-delimited placeholder is
replaced by the rendered value of the named key.  The fuel argument (the
length of the remaining input at the start) makes the recursion structural. -/
def renderAux (kw : KwDict) : Nat → List Char → String
  | 0, _ => ""
  | _ + 1, [] => ""
  | fuel + 1, c :: cs =>
    if c = lbrace then
      let key := String.mk (cs.takeWhile (fun x => x ≠ rbrace))
      let rest := (cs.dropWhile (fun x => x ≠ rbrace)).drop 1
      formatValue (alookup kw key) ++ renderAux kw fuel rest
    else String.singleton c ++ renderAux kw fuel cs

/-- Format a template string against `kwdict`. -/
def renderTemplate (kw : KwDict) (template : String) : String :=
  renderAux kw template.data.length template.data

/-! ## MtimePostprocessor

Modelled from the spec: `gallery_dl/postprocessor/mtime.py` is absent from
the sources (§4.4). -/

/-- Modelled from the spec: `run` (§4.4) — read `kwdict[key]`; convert a
structured date/time value to its integer POSIX timestamp, keep an
already-numeric value as is, and store the integer under `_mtime`; when the
key is absent (or holds neither kind of value) `kwdict` is left unchanged. -/
def mtimeRun (key : String) (kw : KwDict) : KwDict :=
  match alookup kw key with
  | some (MetaValue.date d) => ainsert kw "_mtime" (MetaValue.int (toPosix d))
  | some (MetaValue.int n) => ainsert kw "_mtime" (MetaValue.int n)
  | _ => kw

/-! ## ArchivePostprocessor

Modelled from the spec: `gallery_dl/postprocessor/zip.py` is absent from the
sources (§4.5).  The container is the list of durably written entries
(name, content); `nameTable` is the set of entry names already written.
A `run` call is driven by one `RunInput` carrying the item's filename, its
temp path and content, and whether the underlying container write succeeds
(`ArchiveWriteFailure` oracle, §7). -/

/-- Compression modes admitted by the `compression` option (§4.5). -/
inductive Compression where
  | store
  | deflate
deriving Repr, DecidableEq

/-- Durability modes (§4.5). -/
inductive ArchiveMode where
  | default
  | safe
deriving Repr, DecidableEq

/-- Modelled from the spec: the raw options dictionary the plugin is
constructed with; every option may be absent. -/
structure RawOptions where
  compression : Option String := none
  extension : Option String := none
  keepFiles : Option Bool := none
  mode : Option String := none
deriving Repr, DecidableEq

/-- Parse the `compression` option: exactly `store` and `deflate` are
admitted (§4.5). -/
def parseCompression (s : String) : Option Compression :=
  if s = "store" then some Compression.store
  else if s = "deflate" then some Compression.deflate
  else none

/-- The resolved, immutable configuration of one archive plugin instance. -/
structure ArchiveOptions where
  compression : Compression
  extension : String
  keepFiles : Bool
  mode : ArchiveMode
deriving Repr, DecidableEq

/-- Modelled from the spec: option resolution at construction — compression
defaults to `store`, the container extension to `zip`, `keep-files` to
`false`, the mode to `default` (§4.5). -/
def mkArchiveOptions (o : RawOptions) : ArchiveOptions :=
  { compression := ((o.compression.bind parseCompression).getD Compression.store)
  , extension := o.extension.getD "zip"
  , keepFiles := o.keepFiles.getD false
  , mode := if o.mode = some "safe" then ArchiveMode.safe else ArchiveMode.default }

/-- The configuration obtained when no option is given. -/
def defaultArchiveOptions : ArchiveOptions := mkArchiveOptions {}

/-- Modelled from the spec: the container path — the item's resolved real
directory's own name with the archive extension appended (§6). -/
def containerPath (ctx : PathContext) (ext : String) : String :=
  ctx.realdirectory ++ "." ++ ext

/-- Modelled from the spec: the archive state — the durably written container
entries plus the name table (§3). -/
structure ArchiveState where
  entries : List (String × Nat)
  nameTable : List String
deriving Repr, DecidableEq

/-- Opening a container that already holds `preload` entries: `nameTable` is
preloaded from the names the container already holds (§4.5, default mode);
`archiveInit []` is a fresh container (also the safe-mode start). -/
def archiveInit (preload : List (String × Nat)) : ArchiveState :=
  ⟨preload, preload.map Prod.fst⟩

/-- One `run` call's inputs: the item's filename, temp path, content bytes,
and whether the underlying container write would succeed. -/
structure RunInput where
  filename : String
  temppath : String
  content : Nat
  writeOk : Bool
deriving Repr, DecidableEq

/-- Modelled from the spec: `run` (§4.5) — skip when the filename is already
in the name table; otherwise write the temp file's bytes under the filename,
add the filename to the name table, and (unless `keep-files`) delete the
temp file.  A failed underlying write (§7) leaves both the container and the
name table unchanged and reports failure.  Returns (state, temp files,
success flag). -/
def archiveRun (opts : ArchiveOptions) (st : ArchiveState) (tmp : List String)
    (i : RunInput) : ArchiveState × List String × Bool :=
  if i.filename ∈ st.nameTable then (st, tmp, true)
  else if i.writeOk then
    (⟨st.entries ++ [(i.filename, i.content)], st.nameTable ++ [i.filename]⟩,
     (if opts.keepFiles then tmp else tmp.filter (fun p => p ≠ i.temppath)),
     true)
  else (st, tmp, false)

/-- Fold a sequence of `run` calls over the archive state. -/
def archiveRunSeq (opts : ArchiveOptions) : ArchiveState → List RunInput → ArchiveState
  | st, [] => st
  | st, i :: rest => archiveRunSeq opts (archiveRun opts st [] i).1 rest

/-- Modelled from the spec: `finalize` closes the container handle; the
entries already written are exactly what a reopen of the on-disk container
shows (§4.5, §8). -/
def archiveFinalize (st : ArchiveState) : List (String × Nat) := st.entries

/-- The archive invariant: the name table lists exactly the names of the
durably written entries, in order, and no name occurs twice. -/
def ArchiveInv (st : ArchiveState) : Prop :=
  st.nameTable = st.entries.map Prod.fst ∧ st.nameTable.Nodup

instance (st : ArchiveState) : Decidable (ArchiveInv st) := by
  unfold ArchiveInv; infer_instance

/-! ## PatreonExtractor warn-once flag

Embedded from `src/gallery_dl/extractor/patreon.py`, lines 25-33: `items`
consults the class-level `_warning` flag; when it is set, it logs the
"no session_id cookie" warning exactly when the cookie is absent, and then
clears the flag unconditionally. -/

/-- One `items()` call's effect on the class-level `_warning` flag:
given the flag and whether the session has a `session_id` cookie, returns
(whether the warning is logged, the new flag). -/
def patreonWarnStep (flag : Bool) (hasCookie : Bool) : Bool × Bool :=
  if flag then (!hasCookie, false) else (false, flag)

/-- Run a sequence of `items()` calls (one Bool per call: does that
extractor's session have the cookie?), returning which calls logged the
warning. -/
def patreonWarnRun (flag : Bool) : List Bool → List Bool
  | [] => []
  | c :: cs =>
    (patreonWarnStep flag c).1 :: patreonWarnRun (patreonWarnStep flag c).2 cs

theorem patreonWarnRun_false (cs : List Bool) :
    patreonWarnRun false cs = cs.map (fun _ => false) := by
  induction cs with
  | nil => rfl
  | cons c cs ih => simp [patreonWarnRun, patreonWarnStep, ih]

/-! ## Shared invariant lemmas for the archive -/

theorem archiveRun_inv (opts : ArchiveOptions) (st : ArchiveState)
    (tmp : List String) (i : RunInput) (h : ArchiveInv st) :
    ArchiveInv (archiveRun opts st tmp i).1 := by
  obtain ⟨he, hn⟩ := h
  unfold archiveRun
  by_cases hmem : i.filename ∈ st.nameTable
  · simpa [hmem] using ⟨he, hn⟩
  · by_cases hw : i.writeOk = true
    · rw [if_neg hmem, if_pos hw]
      refine ⟨?_, ?_⟩
      · simp [he]
      · simp [List.nodup_append, hn, hmem]
    · rw [if_neg hmem, if_neg hw]
      exact ⟨he, hn⟩

theorem archiveRunSeq_inv (opts : ArchiveOptions) (L : List RunInput)
    (st : ArchiveState) (h : ArchiveInv st) :
    ArchiveInv (archiveRunSeq opts st L) := by
  induction L generalizing st with
  | nil => exact h
  | cons i rest ih => exact ih _ (archiveRun_inv opts st [] i h)

/-- The three distinct filenames written by the archive idempotence test. -/
def threeFiles : List RunInput :=
  [⟨"file0.ext", "tmp", 5, true⟩,
   ⟨"file1.ext", "tmp", 6, true⟩,
   ⟨"file2.ext", "tmp", 7, true⟩]

theorem count_true_map_false (l : List Bool) :
    (l.map (fun _ => false)).count true = 0 := by
  induction l with
  | nil => rfl
  | cons c rest ih =>
    rw [List.map_cons, List.count_cons, ih]
    rfl

/-! ## Claims -/

/-- Claim C10: across all PatreonExtractor instances, the "no session_id
cookie" warning is logged at most once; the first `items()` call clears the
class-level `_warning` flag whether or not the warning was emitted (and it
logs exactly when the cookie is absent), so if the first extractor has the
cookie, no warning is ever emitted. -/
theorem patreon_warning_at_most_once (cs : List Bool) (c : Bool) :
    (patreonWarnRun true cs).count true ≤ 1 ∧
    (patreonWarnStep true c).2 = false ∧
    (patreonWarnStep true c).1 = !c ∧
    patreonWarnRun true (true :: cs) = false :: cs.map (fun _ => false) := by
  refine ⟨?_, rfl, rfl, ?_⟩
  · cases cs with
    | nil => simp [patreonWarnRun]
    | cons c1 cs1 =>
      simp only [patreonWarnRun, patreonWarnStep, if_true]
      rw [patreonWarnRun_false cs1, List.count_cons, count_true_map_false]
      cases c1 <;> simp
  · simp [patreonWarnRun, patreonWarnStep, patreonWarnRun_false]

/-- Claim C4: for every valid plugin category name, the first `find` call
resolves and caches the constructor (one resolution), and any number of
subsequent calls with the same name return the cached constructor without
re-running resolution — the resolution count stays at 1. -/
theorem registry_find_cached_once (name : String) (n : Nat)
    (h : name ∈ modules) :
    (find (FindArg.str name) Registry.init).2.resolutions = 1 ∧
    (find (FindArg.str name) Registry.init).1
      = some (capitalizeStr name ++ "PP") ∧
    findN (n + 1) (FindArg.str name) Registry.init
      = (find (FindArg.str name) Registry.init).2 ∧
    (findN (n + 1) (FindArg.str name) Registry.init).resolutions = 1 ∧
    (find (FindArg.str name)
        (findN (n + 1) (FindArg.str name) Registry.init)).1
      = some (capitalizeStr name ++ "PP") := by
  have hc : alookup Registry.init.cache name = none := rfl
  have h1 := find_fresh_known Registry.init name hc h
  have hl : alookup (find (FindArg.str name) Registry.init).2.cache name
      = some (capitalizeStr name ++ "PP") := by
    rw [h1]
    simp [Registry.init, ainsert, alookup]
  have hstab : findN (n + 1) (FindArg.str name) Registry.init
      = (find (FindArg.str name) Registry.init).2 := by
    show findN n (FindArg.str name) (find (FindArg.str name) Registry.init).2
        = (find (FindArg.str name) Registry.init).2
    exact findN_stable n name _ ⟨_, hl⟩
  refine ⟨?_, ?_, hstab, ?_, ?_⟩
  · rw [h1]
    rfl
  · rw [h1]
  · rw [hstab, h1]
    rfl
  · rw [hstab, find_cached _ _ _ hl]


/-- Claim C4 witness: the category `"zip"`, looked up six times from a fresh
registry, triggers exactly one resolution. -/
theorem registry_find_cached_once_witness :
    "zip" ∈ modules ∧
    (findN 6 (FindArg.str "zip") Registry.init).resolutions = 1 :=
  ⟨by decide, (registry_find_cached_once "zip" 5 (by decide)).2.2.2.1⟩

/-- Claim C5: `find` returns `none` for non-string arguments and for unknown
category names (never raising), and returns the constructor symbol
`Capitalize(name) + "PP"` for known category names. -/
theorem registry_find_error_handling (st : Registry) (name : String)
    (hc : alookup st.cache name = none) :
    (find FindArg.nonstring st).1 = none ∧
    (name ∉ modules → (find (FindArg.str name) st).1 = none) ∧
    (name ∈ modules →
      (find (FindArg.str name) st).1 = some (capitalizeStr name ++ "PP")) := by
  refine ⟨rfl, ?_, ?_⟩
  · intro h
    simp [find, hc, resolveSymbol, h]
  · intro h
    rw [find_fresh_known st name hc h]

/-- Claim C5 witness: on a fresh registry, `find` of the unknown name
`"foo"`, of a non-string argument, and of the known name `"zip"`. -/
theorem registry_find_error_handling_witness :
    (find (FindArg.str "foo") Registry.init).1 = none ∧
    (find FindArg.nonstring Registry.init).1 = none ∧
    (find (FindArg.str "zip") Registry.init).1 = some "ZipPP" :=
  ⟨(registry_find_error_handling Registry.init "foo" rfl).2.1 (by decide),
   (registry_find_error_handling Registry.init "foo" rfl).1,
   ((registry_find_error_handling Registry.init "zip" rfl).2.2
      (by decide)).trans (by decide)⟩

/-- Claim C6: an extension absent from the active (inverted) mapping leaves
`path`/`realpath` unchanged in `prepare` and triggers no directory creation
in `run`; a mapped extension appends the label as an additional path segment,
and `run` creates the target directory tree idempotently (`exist_ok`). -/
theorem classify_prepare_run (pp : ClassifyPP) (ctx : PathContext)
    (fs : List String) (label : String) :
    (lookupLast pp.mapping ctx.extension = none →
      classifyPrepare pp ctx = (ctx, none) ∧
      (classifyPrepare pp ctx).1.path = ctx.path ∧
      (classifyPrepare pp ctx).1.realpath = ctx.realpath ∧
      classifyRun (classifyPrepare pp ctx).2 fs = (fs, 0)) ∧
    (lookupLast pp.mapping ctx.extension = some label →
      (classifyPrepare pp ctx).1.directory = ctx.directory ++ [label] ∧
      (classifyPrepare pp ctx).2
        = some ((classifyPrepare pp ctx).1.realdirectory) ∧
      (classifyPrepare pp ctx).1.realdirectory
        ∈ (classifyRun (classifyPrepare pp ctx).2 fs).1 ∧
      (classifyRun (classifyPrepare pp ctx).2
          (classifyRun (classifyPrepare pp ctx).2 fs).1).1
        = (classifyRun (classifyPrepare pp ctx).2 fs).1) := by
  constructor
  · intro h
    simp [classifyPrepare, classifyRun, h]
  · intro h
    refine ⟨?_, ?_, ?_, ?_⟩
    · simp [classifyPrepare, h]
    · simp [classifyPrepare, h]
    · simp only [classifyPrepare, h, classifyRun]
      by_cases hmem :
          (⟨ctx.base, ctx.directory ++ [label], ctx.filename,
            ctx.extension⟩ : PathContext).realdirectory ∈ fs
      · simp [hmem]
      · simp [hmem]
    · simp only [classifyPrepare, h, classifyRun]
      by_cases hmem :
          (⟨ctx.base, ctx.directory ++ [label], ctx.filename,
            ctx.extension⟩ : PathContext).realdirectory ∈ fs
      · simp [hmem]
      · simp [hmem]

/-- Claim C6 witness: with the default mapping, the unmapped extension
`ext` is a no-op (its path untouched, no directory created), while `jpg`
routes under the `Pictures` label and its directory is created. -/
theorem classify_prepare_run_witness :
    classifyPrepare (mkClassify none) ⟨"/base", ["test"], "file", "ext"⟩
      = (⟨"/base", ["test"], "file", "ext"⟩, none) ∧
    classifyRun
      (classifyPrepare (mkClassify none)
        ⟨"/base", ["test"], "file", "ext"⟩).2 [] = ([], 0) ∧
    (classifyPrepare (mkClassify none)
        ⟨"/base", ["test"], "file", "jpg"⟩).1.directory
      = ["test", "Pictures"] ∧
    (classifyPrepare (mkClassify none)
        ⟨"/base", ["test"], "file", "jpg"⟩).1.realdirectory
      ∈ (classifyRun
          (classifyPrepare (mkClassify none)
            ⟨"/base", ["test"], "file", "jpg"⟩).2 []).1 :=
  ⟨((classify_prepare_run (mkClassify none) ⟨"/base", ["test"], "file", "ext"⟩
      [] "x").1 (by decide)).1,
   ((classify_prepare_run (mkClassify none) ⟨"/base", ["test"], "file", "ext"⟩
      [] "x").1 (by decide)).2.2.2,
   ((classify_prepare_run (mkClassify none) ⟨"/base", ["test"], "file", "jpg"⟩
      [] "Pictures").2 (by decide)).1,
   ((classify_prepare_run (mkClassify none) ⟨"/base", ["test"], "file", "jpg"⟩
      [] "Pictures").2 (by decide)).2.2.1⟩

/-- Claim C7: the `tags` mode writes one tag per line terminated by a
newline — a sequence is written as is; a string containing commas is split
on commas, otherwise on whitespace; the three example inputs all yield
`"foo\nbar\nbaz\n"` and the whitespace form yields
`"foobar1\nfoobar2\nfoobarbaz\n"`. -/
theorem metadata_tags_output (l : List String) :
    tagsOutput [("tags", MetaValue.strlist l)] = some (joinLines l) ∧
    tagsOutput [("tags", MetaValue.strlist ["foo", "bar", "baz"])]
      = some "foo\nbar\nbaz\n" ∧
    tagsOutput [("tags", MetaValue.str "foo, bar, baz")]
      = some "foo\nbar\nbaz\n" ∧
    tagsOutput [("tag_string", MetaValue.str "foo, bar, baz")]
      = some "foo\nbar\nbaz\n" ∧
    tagsOutput [("tags", MetaValue.str "foobar1 foobar2 foobarbaz")]
      = some "foobar1\nfoobar2\nfoobarbaz\n" := by
  refine ⟨?_, by decide, by decide, by decide, by decide⟩
  simp [tagsOutput, alookup]

/-- Claim C8: the `custom` mode substitutes each referenced key with its
`kwdict` value and renders a referenced key absent from `kwdict` as the
literal text `None`: for any `kwdict` binding `foo` to a string `v` and
lacking `missing`, the template `"{foo}\n{missing}\n"` produces
`v ++ "\nNone\n"`. -/
theorem metadata_custom_missing_none (kw : KwDict) (v : String)
    (hf : alookup kw "foo" = some (MetaValue.str v))
    (hm : alookup kw "missing" = none) :
    renderTemplate kw "{foo}\n{missing}\n" = v ++ "\nNone\n" := by
  have hstep : renderTemplate kw "{foo}\n{missing}\n"
      = formatValue (alookup kw "foo")
          ++ ("\n" ++ (formatValue (alookup kw "missing") ++ ("\n" ++ ""))) :=
    rfl
  rw [hstep, hf, hm]
  show v ++ ("\n" ++ ("None" ++ ("\n" ++ ""))) = v ++ "\nNone\n"
  have hlit : ("\n" ++ ("None" ++ ("\n" ++ "")) : String) = "\nNone\n" := by
    decide
  rw [hlit]

/-- Claim C8 witness: `foo="bar"` with the template `"{foo}\n{missing}\n"`
produces `"bar\nNone\n"`. -/
theorem metadata_custom_missing_none_witness :
    renderTemplate [("foo", MetaValue.str "bar")] "{foo}\n{missing}\n"
      = "bar\nNone\n" :=
  (metadata_custom_missing_none [("foo", MetaValue.str "bar")] "bar"
      (by decide) (by decide)).trans (by decide)

/-- Claim C9: `MtimePostprocessor.run` with the default key `date` stores an
integer POSIX timestamp under `_mtime` — a structured date/time value is
converted (1980-01-01T00:00:00Z becomes 315532800), an already-numeric value
is stored as is — and an absent key leaves `kwdict` unchanged. -/
theorem mtime_run_spec (kw : KwDict) (d : DateTimeUTC) (n : Int) :
    (alookup kw "date" = none → mtimeRun "date" kw = kw) ∧
    (alookup kw "date" = some (MetaValue.date d) →
      alookup (mtimeRun "date" kw) "_mtime"
        = some (MetaValue.int (toPosix d))) ∧
    (alookup kw "date" = some (MetaValue.int n) →
      alookup (mtimeRun "date" kw) "_mtime" = some (MetaValue.int n)) ∧
    toPosix ⟨1980, 1, 1, 0, 0, 0⟩ = 315532800 ∧
    alookup (mtimeRun "date" [("date", MetaValue.date ⟨1980, 1, 1, 0, 0, 0⟩)])
        "_mtime" = some (MetaValue.int 315532800) ∧
    alookup (mtimeRun "date" [("date", MetaValue.int 315532800)]) "_mtime"
      = some (MetaValue.int 315532800) := by
  refine ⟨?_, ?_, ?_, by decide, by decide, by decide⟩
  · intro h
    simp [mtimeRun, h]
  · intro h
    simp [mtimeRun, h, alookup_ainsert]
  · intro h
    simp [mtimeRun, h, alookup_ainsert]

/-- Claim C9 witness: an absent `date` key leaves an empty `kwdict`
unchanged, and the two example inputs both store 315532800. -/
theorem mtime_run_spec_witness :
    mtimeRun "date" [] = [] ∧
    alookup (mtimeRun "date" [("date", MetaValue.date ⟨1980, 1, 1, 0, 0, 0⟩)])
        "_mtime" = some (MetaValue.int 315532800) :=
  ⟨(mtime_run_spec [] ⟨1980, 1, 1, 0, 0, 0⟩ 0).1 rfl,
   (mtime_run_spec [] ⟨1980, 1, 1, 0, 0, 0⟩ 0).2.2.2.2.1⟩

/-- Claim C1: a `run` whose filename is already in the name table is a
no-op (state, temp files, entry count all unchanged); a `run` with a fresh
filename and a successful write adds exactly one entry under that filename;
writing three distinct filenames yields three entries and re-running the
write for the last filename leaves the entry count at three. -/
theorem archive_run_dedup (opts : ArchiveOptions) (st : ArchiveState)
    (tmp : List String) (i : RunInput) :
    (i.filename ∈ st.nameTable → archiveRun opts st tmp i = (st, tmp, true)) ∧
    (i.filename ∉ st.nameTable → i.writeOk = true →
      (archiveRun opts st tmp i).1.entries
        = st.entries ++ [(i.filename, i.content)] ∧
      (archiveRun opts st tmp i).1.nameTable
        = st.nameTable ++ [i.filename] ∧
      (archiveRun opts st tmp i).1.entries.length
        = st.entries.length + 1) ∧
    (archiveRunSeq defaultArchiveOptions (archiveInit [])
        threeFiles).entries.length = 3 ∧
    (archiveRunSeq defaultArchiveOptions (archiveInit [])
        (threeFiles ++ [⟨"file2.ext", "tmp", 7, true⟩])).entries.length
      = 3 := by
  refine ⟨?_, ?_, by decide, by decide⟩
  · intro h
    simp [archiveRun, h]
  · intro h hw
    unfold archiveRun
    rw [if_neg h, if_pos hw]
    simp

/-- Claim C1 witness: a duplicate filename is a no-op on a one-entry
archive, and a fresh filename extends an empty archive by one entry. -/
theorem archive_run_dedup_witness :
    archiveRun defaultArchiveOptions (archiveInit [("a", 1)]) ["t"]
        ⟨"a", "t", 2, true⟩
      = (archiveInit [("a", 1)], ["t"], true) ∧
    (archiveRun defaultArchiveOptions (archiveInit []) []
        ⟨"a", "t", 2, true⟩).1.entries = [("a", 2)] :=
  ⟨(archive_run_dedup defaultArchiveOptions (archiveInit [("a", 1)]) ["t"]
      ⟨"a", "t", 2, true⟩).1 (by decide),
   ((archive_run_dedup defaultArchiveOptions (archiveInit []) []
      ⟨"a", "t", 2, true⟩).2.1 (by decide) rfl).1⟩

/-- Claim C2: a filename is in the name table iff a corresponding entry has
been written to the container — the invariant holds of a (possibly
preloaded) freshly opened container, is preserved by every `run` (a failed
write changes nothing), and after finalize the reopened container shows
exactly the entries written, with no duplicate names. -/
theorem archive_nameTable_invariant (opts : ArchiveOptions)
    (st : ArchiveState) (tmp : List String) (i : RunInput)
    (L : List RunInput) (p : List (String × Nat)) (h : ArchiveInv st) :
    (∀ nm, nm ∈ st.nameTable ↔ nm ∈ st.entries.map Prod.fst) ∧
    ArchiveInv (archiveRun opts st tmp i).1 ∧
    (i.writeOk = false → (archiveRun opts st tmp i).1 = st) ∧
    ArchiveInv (archiveRunSeq opts st L) ∧
    ((archiveFinalize (archiveRunSeq opts st L)).map Prod.fst).Nodup ∧
    (∀ nm, nm ∈ (archiveFinalize (archiveRunSeq opts st L)).map Prod.fst
      ↔ nm ∈ (archiveRunSeq opts st L).nameTable) ∧
    ((p.map Prod.fst).Nodup → ArchiveInv (archiveInit p)) := by
  have hseq := archiveRunSeq_inv opts L st h
  refine ⟨?_, archiveRun_inv opts st tmp i h, ?_, hseq, ?_, ?_, ?_⟩
  · intro nm
    rw [h.1]
  · intro hw
    unfold archiveRun
    by_cases hmem : i.filename ∈ st.nameTable
    · rw [if_pos hmem]
    · rw [if_neg hmem, if_neg (by simp [hw])]
  · rw [archiveFinalize, ← hseq.1]
    exact hseq.2
  · intro nm
    rw [archiveFinalize, ← hseq.1]
  · intro hp
    exact ⟨rfl, hp⟩

/-- Claim C2 witness: from a freshly opened empty container, the three-file
run keeps the invariant, a failed write is a no-op, and the persisted
entry names are duplicate-free. -/
theorem archive_nameTable_invariant_witness :
    ArchiveInv (archiveRunSeq defaultArchiveOptions (archiveInit [])
      threeFiles) ∧
    (archiveRun defaultArchiveOptions (archiveInit []) []
        ⟨"a", "t", 2, false⟩).1 = archiveInit [] ∧
    ((archiveFinalize (archiveRunSeq defaultArchiveOptions (archiveInit [])
        threeFiles)).map Prod.fst).Nodup :=
  ⟨(archive_nameTable_invariant defaultArchiveOptions (archiveInit []) []
      ⟨"a", "t", 2, false⟩ threeFiles [] (by decide)).2.2.2.1,
   (archive_nameTable_invariant defaultArchiveOptions (archiveInit []) []
      ⟨"a", "t", 2, false⟩ threeFiles [] (by decide)).2.2.1 rfl,
   (archive_nameTable_invariant defaultArchiveOptions (archiveInit []) []
      ⟨"a", "t", 2, false⟩ threeFiles [] (by decide)).2.2.2.2.1⟩

/-- Claim C3: with no explicit options the archive plugin uses `store`
compression, container extension `zip`, and `keep-files = false` (the temp
file is deleted once added); the container path is the resolved real
directory's own name with the archive extension appended, next to that
directory, depending only on the directory context; and the `compression`
option admits exactly `store` and `deflate`. -/
theorem archive_default_options (ctx ctx2 : PathContext) (ds : List String)
    (label s : String) (st : ArchiveState) (tmp : List String) (i : RunInput)
    (hfresh : i.filename ∉ st.nameTable) (hw : i.writeOk = true)
    (hb : ctx.base = ctx2.base) (hd : ctx.directory = ctx2.directory)
    (hsplit : ctx.directory = ds ++ [label]) :
    defaultArchiveOptions.compression = Compression.store ∧
    defaultArchiveOptions.extension = "zip" ∧
    defaultArchiveOptions.keepFiles = false ∧
    defaultArchiveOptions.mode = ArchiveMode.default ∧
    i.temppath ∉ (archiveRun defaultArchiveOptions st tmp i).2.1 ∧
    containerPath ctx defaultArchiveOptions.extension
      = ctx.realdirectory ++ ".zip" ∧
    containerPath ctx defaultArchiveOptions.extension
      = joinSegs (ctx.base :: ds) ++ "/" ++ (label ++ ".zip") ∧
    containerPath ctx defaultArchiveOptions.extension
      = containerPath ctx2 defaultArchiveOptions.extension ∧
    ((parseCompression s).isSome ↔ s = "store" ∨ s = "deflate") := by
  refine ⟨rfl, rfl, rfl, rfl, ?_, ?_, ?_, ?_, ?_⟩
  · unfold archiveRun
    rw [if_neg hfresh, if_pos hw]
    simp [defaultArchiveOptions, mkArchiveOptions, List.mem_filter]
  · show ctx.realdirectory ++ "." ++ "zip" = ctx.realdirectory ++ ".zip"
    rw [String.append_assoc]
    congr 1
  · show ctx.realdirectory ++ "." ++ "zip"
        = joinSegs (ctx.base :: ds) ++ "/" ++ (label ++ ".zip")
    rw [PathContext.realdirectory, hsplit, joinSegs_append_last]
    rw [String.append_assoc, String.append_assoc]
    congr 1
  · show ctx.realdirectory ++ "." ++ "zip"
        = ctx2.realdirectory ++ "." ++ "zip"
    rw [PathContext.realdirectory, PathContext.realdirectory, hb, hd]
  · constructor
    · intro hsome
      by_cases h1 : s = "store"
      · exact Or.inl h1
      · by_cases h2 : s = "deflate"
        · exact Or.inr h2
        · simp [parseCompression, h1, h2] at hsome
    · rintro (h1 | h1) <;> simp [parseCompression, h1]

/-- Claim C3 witness: the defaults at a concrete directory context — the
container for `/base/test` is `/base/test.zip`, the temp file `t` is deleted
after a successful fresh write, and `"deflate"` parses while the defaults
hold. -/
theorem archive_default_options_witness :
    defaultArchiveOptions.compression = Compression.store ∧
    "t" ∉ (archiveRun defaultArchiveOptions (archiveInit []) ["t"]
        ⟨"f", "t", 1, true⟩).2.1 ∧
    containerPath ⟨"/base", ["test"], "file", "ext"⟩
        defaultArchiveOptions.extension = "/base/test.zip" ∧
    ((parseCompression "deflate").isSome ↔
      "deflate" = "store" ∨ "deflate" = "deflate") :=
  ⟨(archive_default_options ⟨"/base", ["test"], "file", "ext"⟩
      ⟨"/base", ["test"], "other", "jpg"⟩ [] "test" "deflate"
      (archiveInit []) ["t"] ⟨"f", "t", 1, true⟩
      (by decide) rfl rfl rfl rfl).1,
   (archive_default_options ⟨"/base", ["test"], "file", "ext"⟩
      ⟨"/base", ["test"], "other", "jpg"⟩ [] "test" "deflate"
      (archiveInit []) ["t"] ⟨"f", "t", 1, true⟩
      (by decide) rfl rfl rfl rfl).2.2.2.2.1,
   ((archive_default_options ⟨"/base", ["test"], "file", "ext"⟩
      ⟨"/base", ["test"], "other", "jpg"⟩ [] "test" "deflate"
      (archiveInit []) ["t"] ⟨"f", "t", 1, true⟩
      (by decide) rfl rfl rfl rfl).2.2.2.2.2.1).trans (by decide),
   (archive_default_options ⟨"/base", ["test"], "file", "ext"⟩
      ⟨"/base", ["test"], "other", "jpg"⟩ [] "test" "deflate"
      (archiveInit []) ["t"] ⟨"f", "t", 1, true⟩
      (by decide) rfl rfl rfl rfl).2.2.2.2.2.2.2.2⟩

end GalleryDL
